import Mathlib

/-!
# Verification of the vendor-dashboard scoring core (`src/streamlit_app.py`)

Shallow embedding of the decision logic of the dashboard script:
`recalc_terms_days` (lines 46-75), `calculate_vendor_score` (lines 78-86),
`assign_rank_badge` (lines 92-116), the recompute pass (lines 131-159) and
the module-level `total_cost` computation (line 201).

Modelling conventions:
* Python `float` values are modelled as `Option ℚ`: `some q` is a finite
  float of exact value `q` (the arithmetic the claims mention is exact, so
  no rounding is modelled), `none` is IEEE NaN.  Infinities never arise
  from the inputs any claim mentions and are outside the model (the string
  parser rejects `"inf"`).
* A table cell is a `PyObj`: Python `None`, a float (possibly NaN, as a
  missing cell read by pandas), or a string.
* Raised exceptions are modelled as `Except.error`; a Python function that
  catches locally and returns is total.
* `datetime.date` is modelled by `PyDate` together with Python's
  `toordinal`, so that `(a - b).days = toordinal a - toordinal b` and
  `a < b` is calendar (lexicographic) order, as in CPython.
* `recalc_terms_days` reads `datetime.date.today()` internally; the
  ambient clock value becomes the explicit `today : PyDate` argument of
  the embedding.
-/

/- The Batteries rational primitives are `@[irreducible]`, which blocks
`decide` on concrete score values; restore the default reducibility for
this file so concrete runs of the embedded code evaluate. -/
attribute [local semireducible] Rat.add Rat.mul Rat.inv Rat.sub

/-- A Python value that can sit in the `price` cell of a row:
`None`, a float (`some q` finite, `none` = NaN), or a string. -/
inductive PyObj where
  | none_ : PyObj
  | num : Option ℚ → PyObj
  | str : String → PyObj
deriving DecidableEq

/-- Whitespace characters stripped by `float()` / `str.strip()`
(ASCII subset; the inputs in this development contain no exotic
unicode whitespace). -/
def isWs (c : Char) : Bool :=
  c == ' ' || c == '\t' || c == '\n' || c == '\r' || c == '\x0b' || c == '\x0c'

/-- Strip leading and trailing whitespace from a character list. -/
def trimWs (cs : List Char) : List Char :=
  ((cs.dropWhile isWs).reverse.dropWhile isWs).reverse

/-- Numeric value of a digit list (most significant first); `none`
unless the list is nonempty and all digits. -/
def digitsVal : List Char → Option ℕ
  | [] => none
  | cs =>
    if cs.all Char.isDigit then
      some (cs.foldl (fun acc c => 10 * acc + (c.toNat - 48)) 0)
    else none

/-- Value of a digit list allowing emptiness (empty = 0), used for the
fractional part of `"5."`-style literals. -/
def digitsVal0 (cs : List Char) : Option ℕ :=
  if cs.all Char.isDigit then
    some (cs.foldl (fun acc c => 10 * acc + (c.toNat - 48)) 0)
  else none

/-- Parse an unsigned decimal mantissa `digits [. digits]` (at least one
digit overall) as an exact rational. -/
def parseMantissa (cs : List Char) : Option ℚ :=
  let ip := cs.takeWhile (fun c => c ≠ '.')
  let rest := cs.dropWhile (fun c => c ≠ '.')
  match rest with
  | [] => (digitsVal ip).map (fun n => (n : ℚ))
  | '.' :: fp =>
    if ip.isEmpty && fp.isEmpty then none
    else
      match digitsVal0 ip, digitsVal0 fp with
      | some i, some f => some ((i : ℚ) + (f : ℚ) / (10 : ℚ) ^ fp.length)
      | _, _ => none
  | _ => none

/-- Strip an optional leading sign; returns (isNegative, rest). -/
def parseSign : List Char → Bool × List Char
  | '+' :: rest => (false, rest)
  | '-' :: rest => (true, rest)
  | cs => (false, cs)

/-- Parse an optionally signed integer exponent (for `e`-notation). -/
def parseExp (cs : List Char) : Option ℤ :=
  let (neg, rest) := parseSign cs
  (digitsVal rest).map (fun n => if neg then -(n : ℤ) else (n : ℤ))

/-- Model of CPython `float(s)` on strings, restricted to finite decimal
literals and NaN: optional surrounding whitespace, optional sign,
`digits [. digits] [(e|E) [sign] digits]`, or the special string `"nan"`
(case-insensitive, yielding NaN).  Thousands separators and currency
symbols are not part of the grammar, so `"1,234"` or `"$5"` raise
`ValueError` (modelled as `Except.error`).  Infinite literals are outside
the model. -/
def pyFloatOfString (s : String) : Except String (Option ℚ) :=
  let cs := trimWs s.toList
  let (neg, rest) := parseSign cs
  if rest.map Char.toLower = "nan".toList then .ok none
  else
    let mant := rest.takeWhile (fun c => c ≠ 'e' ∧ c ≠ 'E')
    let expPart := rest.dropWhile (fun c => c ≠ 'e' ∧ c ≠ 'E')
    let val : Option ℚ :=
      match expPart with
      | [] => parseMantissa mant
      | _ :: ec =>
        match parseMantissa mant, parseExp ec with
        | some m, some e => some (m * (10 : ℚ) ^ e)
        | _, _ => none
    match val with
    | some q => .ok (some (if neg then -q else q))
    | none => .error "could not convert string to float"

deriving instance DecidableEq for Except

/-- Model of the Python builtin `float(x)` as used on a cell value:
`None` raises `TypeError`, a float is returned unchanged (NaN included),
a string is parsed. -/
def pyFloat : PyObj → Except String (Option ℚ)
  | .none_ => .error "float() argument must be a string or a real number"
  | .num v => .ok v
  | .str s => pyFloatOfString s

/-! ## Dates (model of `datetime.date`) -/

/-- A calendar date, as CPython's `datetime.date` (proleptic Gregorian,
year ≥ 1 when valid). -/
structure PyDate where
  year : ℕ
  month : ℕ
  day : ℕ
deriving DecidableEq

/-- CPython `_is_leap`. -/
def isleap (y : ℕ) : Bool :=
  (y % 4 == 0 && y % 100 != 0) || y % 400 == 0

/-- CPython `_DAYS_BEFORE_MONTH` table (days in the year before the first
of the month, leap adjustment excluded). -/
def daysBeforeMonthTable : ℕ → ℕ
  | 1 => 0 | 2 => 31 | 3 => 59 | 4 => 90 | 5 => 120 | 6 => 151
  | 7 => 181 | 8 => 212 | 9 => 243 | 10 => 273 | 11 => 304 | 12 => 334
  | _ => 0

/-- CPython `_DAYS_IN_MONTH` (non-leap). -/
def daysInMonthTable : ℕ → ℕ
  | 1 => 31 | 2 => 28 | 3 => 31 | 4 => 30 | 5 => 31 | 6 => 30
  | 7 => 31 | 8 => 31 | 9 => 30 | 10 => 31 | 11 => 30 | 12 => 31
  | _ => 0

/-- Days in a month of a given year (leap February has 29). -/
def daysInMonth (y m : ℕ) : ℕ :=
  if m = 2 ∧ isleap y then 29 else daysInMonthTable m

/-- CPython `_days_before_year y = (y-1)*365 + (y-1)//4 - (y-1)//100 +
(y-1)//400` (the subtraction never clips since `p/4 ≥ p/100`). -/
def daysBeforeYear (y : ℕ) : ℕ :=
  365 * (y - 1) + (y - 1) / 4 - (y - 1) / 100 + (y - 1) / 400

/-- CPython `date.toordinal`: day number in the proleptic Gregorian
calendar, with 0001-01-01 as day 1. -/
def toordinal (d : PyDate) : ℕ :=
  daysBeforeYear d.year + daysBeforeMonthTable d.month +
    (if 2 < d.month ∧ isleap d.year then 1 else 0) + d.day

/-- Python `date` comparison: lexicographic on (year, month, day). -/
def dateLt (a b : PyDate) : Bool :=
  a.year < b.year ∨ (a.year = b.year ∧
    (a.month < b.month ∨ (a.month = b.month ∧ a.day < b.day)))

/-- Python `(a - b).days` for dates. -/
def dateSubDays (a b : PyDate) : ℤ :=
  (toordinal a : ℤ) - (toordinal b : ℤ)

/-- Validity of a `PyDate` (what `datetime.date` enforces on
construction, ignoring the upper year bound 9999). -/
def PyDate.Valid (d : PyDate) : Prop :=
  1 ≤ d.year ∧ 1 ≤ d.month ∧ d.month ≤ 12 ∧ 1 ≤ d.day ∧ d.day ≤ daysInMonth d.year d.month

instance (d : PyDate) : Decidable d.Valid := by
  unfold PyDate.Valid; infer_instance

/-! ## `recalc_terms_days` (lines 46-75) -/

/-- `pat` is a prefix of the second list (character comparison). -/
def listPrefixOf : List Char → List Char → Bool
  | [], _ => true
  | _ :: _, [] => false
  | a :: as, b :: bs => a == b && listPrefixOf as bs

/-- `pat` occurs somewhere in the list. -/
def containsAux (pat : List Char) : List Char → Bool
  | [] => listPrefixOf pat []
  | c :: rest => listPrefixOf pat (c :: rest) || containsAux pat rest

/-- `needle in haystack` on the character level (Python `in` for
strings). -/
def containsSub (pat : String) (cs : List Char) : Bool :=
  containsAux pat.toList cs

/-- Embedding of `recalc_terms_days` (lines 46-75).  `term_raw = none`
models a null/NaN cell (`pd.isna`); a string cell keeps its text.  The
`today` argument is the value of the internal `datetime.date.today()`
call made explicit. -/
def recalc_terms_days (term_raw : Option String) (today : PyDate) : ℤ :=
  match term_raw with
  | none => 0
  | some s =>
    let t := trimWs s.toList
    if containsSub "No current vendor" t then 0
    else if containsSub "30" t then 30
    else if containsSub "August 1st" t then
      let due : PyDate := ⟨today.year, 8, 1⟩
      let due := if dateLt due today then ⟨today.year + 1, 8, 1⟩ else due
      dateSubDays due today
    else if containsSub "March 15th" t then
      let due : PyDate := ⟨today.year, 3, 15⟩
      let due := if dateLt due today then ⟨today.year + 1, 3, 15⟩ else due
      dateSubDays due today
    else 0

/-! ## `calculate_vendor_score` (lines 78-86) -/

/-- Embedding of `calculate_vendor_score` (lines 78-86).  The bare
`except:` around `float(row["price"])` maps a parse failure to the 9999
sentinel; a NaN price survives the `try` and propagates through the
addition (`Option.map`).  `int(row["terms_days"]) if row["terms_days"]
else 0` is the identity on the integer `terms_days` column. -/
def calculate_vendor_score (price : PyObj) (terms_days : ℤ) : Option ℚ :=
  match pyFloat price with
  | .error _ => some 9999
  | .ok p =>
    let days : ℤ := if terms_days ≠ 0 then terms_days else 0
    if 0 < days then p.map (fun q => q + 1 / (days : ℚ)) else some 9999

/-! ## Row structures -/

/-- A raw input row (the columns the uploaded CSV must provide that the
core reads; `terms_days` from the file is overwritten before use and so
is not part of the raw data). -/
structure InputRow where
  vendor_code : String
  product : String
  price : PyObj
  terms_raw : Option String
deriving DecidableEq

/-- A row after the `terms_days` / `vendor_score` recompute
(lines 131-135 resp. 155-156). -/
structure ScoredRow extends InputRow where
  terms_days : ℤ
  vendor_score : Option ℚ
deriving DecidableEq

/-- A row after `assign_rank_badge` added its three columns. -/
structure RankedRow extends ScoredRow where
  rank : ℕ
  rank_badge : String
  rank_color : String
deriving DecidableEq

/-- A row after the module-level `total_cost` column (line 201). -/
structure OutRow extends RankedRow where
  total_cost : Option ℚ
deriving DecidableEq

/-! ## `assign_rank_badge` (lines 92-116) -/

/-- `badge_for_rank` (lines 96-103). -/
def badge_for_rank (r : ℕ) : String :=
  if r = 1 then "🥇 Gold"
  else if r = 2 then "🥈 Silver"
  else if r = 3 then "🥉 Bronze"
  else ""

/-- `color_for_rank` (lines 105-112). -/
def color_for_rank (r : ℕ) : String :=
  if r = 1 then "background-color: \x23fff4b3;"
  else if r = 2 then "background-color: \x23e6e8ea;"
  else if r = 3 then "background-color: \x23f2d3b1;"
  else ""

/-- Model of `Series.rank(method="first")` on a column with no NaN:
the rank of entry `i` is the number of entries strictly smaller, plus
the number of equal entries at position ≤ `i` (ties are broken by
original order, so equal values get increasing ranks). -/
def rankFirst {n : ℕ} (f : Fin n → ℚ) (i : Fin n) : ℕ :=
  (Finset.univ.filter fun j => f j < f i).card +
    (Finset.univ.filter fun j => f j = f i ∧ j ≤ i).card

/-- The strict "sort ascending by score, break ties by original
position" order underlying `rank(method="first")`. -/
def scoreKeyLt {n : ℕ} (f : Fin n → ℚ) (i j : Fin n) : Prop :=
  f i < f j ∨ (f i = f j ∧ i < j)

instance {n : ℕ} (f : Fin n → ℚ) (i j : Fin n) : Decidable (scoreKeyLt f i j) := by
  unfold scoreKeyLt; infer_instance

/-- Embedding of `assign_rank_badge` (lines 92-116).  `df.copy()` makes
the function non-mutating, which the embedding reflects by being a pure
function.  `rank(method="first").astype(int)` raises `ValueError` when
any score is NaN (the rank of a NaN entry is NaN); otherwise every row —
sentinel scores included — receives an integer rank and the two derived
badge/color columns. -/
def assign_rank_badge (rows : List ScoredRow) : Except String (List RankedRow) :=
  if (rows.map ScoredRow.vendor_score).all Option.isSome then
    let f : Fin rows.length → ℚ := fun j => ((rows.get j).vendor_score).getD 0
    .ok ((List.finRange rows.length).map fun i =>
      let r := rankFirst f i
      { toScoredRow := rows.get i, rank := r,
        rank_badge := badge_for_rank r, rank_color := color_for_rank r })
  else .error "Cannot convert non-finite values (NA or inf) to integer"

/-! ## The recompute pass (lines 131-159) and `total_cost` (line 201) -/

/-- Lines 131-135 (and identically 154-156): overwrite `terms_days` from
`terms_raw` and `vendor_score` from the row, for every row. -/
def scoreRows (T : List InputRow) (today : PyDate) : List ScoredRow :=
  T.map fun r =>
    let td := recalc_terms_days r.terms_raw today
    { toInputRow := r, terms_days := td,
      vendor_score := calculate_vendor_score r.price td }

/-- Line 201: `ranked_df["total_cost"] = ranked_df["price"].astype(float) * qty`.
`astype(float)` applies the `float` conversion to every price cell and
raises (is not caught) on the first cell that fails to convert; a NaN
price yields a NaN total cost. -/
def addTotalCost : List RankedRow → ℚ → Except String (List OutRow)
  | [], _ => .ok []
  | r :: rs, qty =>
    match pyFloat r.price with
    | .error e => .error e
    | .ok p =>
      match addTotalCost rs qty with
      | .error e => .error e
      | .ok out => .ok ({ toRankedRow := r, total_cost := p.map (fun v => v * qty) } :: out)

/-- Drop all derived columns of an output row, keeping the raw ones. -/
def stripDerived (r : OutRow) : InputRow :=
  ⟨r.vendor_code, r.product, r.price, r.terms_raw⟩

/-- The full recompute pipeline on a table: derive `terms_days` and
`vendor_score` (lines 131-135 / 154-156), rank and badge (line 159),
then `total_cost` at the given order quantity (line 201). -/
def recompute (T : List InputRow) (today : PyDate) (qty : ℚ) :
    Except String (List OutRow) :=
  (assign_rank_badge (scoreRows T today)).bind fun ranked => addTotalCost ranked qty

/-! ## Reference payment-term resolver, following the spec's words

The spec (§4.2, §9) describes the resolver as an ordered set of
classification rules evaluated in a fixed priority order (no-vendor
marker > fixed-numeric-term marker > named calendar-date markers >
fallback), each rule a total function from text to a resolved
term-days-or-absent.  These definitions follow those words; they are the
comparison point for the refinement claim about `recalc_terms_days`. -/

/-- Spec rule: text containing the no-vendor marker resolves to
absent/zero. -/
def specNoVendorRule (t : List Char) : Option ℤ :=
  if containsSub "No current vendor" t then some 0 else none

/-- Spec rule: text containing the numeric-term marker (a literal "30"
anywhere) resolves to a fixed 30-day term, independent of the
surrounding text. -/
def specNumericRule (t : List Char) : Option ℤ :=
  if containsSub "30" t then some 30 else none

/-- Spec: the next occurrence of the calendar date (month `m`, day `d`)
at or after `today` — next year's occurrence if this year's has already
passed. -/
def nextOccurrence (m d : ℕ) (today : PyDate) : PyDate :=
  if dateLt ⟨today.year, m, d⟩ today then ⟨today.year + 1, m, d⟩
  else ⟨today.year, m, d⟩

/-- Spec rule: text containing an annual-date marker resolves to the day
count from today to the next occurrence of that date. -/
def specAnnualRule (marker : String) (m d : ℕ) (today : PyDate) (t : List Char) :
    Option ℤ :=
  if containsSub marker t then some (dateSubDays (nextOccurrence m d today) today)
  else none

/-- Evaluate an ordered rule list: the first rule that fires decides;
when none fires, fall back to absent/zero. -/
def firstRule : List (Option ℤ) → ℤ
  | [] => 0
  | some v :: _ => v
  | none :: rest => firstRule rest

/-- The payment-term resolver as the spec words it: null/NaN resolves to
absent/zero, otherwise the ordered rules decide. -/
def resolveTermsSpec (term_raw : Option String) (today : PyDate) : ℤ :=
  match term_raw with
  | none => 0
  | some s =>
    let t := trimWs s.toList
    firstRule [specNoVendorRule t, specNumericRule t,
      specAnnualRule "August 1st" 8 1 today t,
      specAnnualRule "March 15th" 3 15 today t]

/-! ## Concrete sample rows

Small literal rows used to run the embedded functions on closed inputs
in the example theorems below. -/

def sampleInput (c : String) (price : PyObj) (t : Option String) : InputRow :=
  { vendor_code := c, product := "widget", price := price, terms_raw := t }

def sampleScored (c : String) (s : Option ℚ) : ScoredRow :=
  { toInputRow := sampleInput c (.str "10.0") (some "net 30"),
    terms_days := 30, vendor_score := s }

def sampleRanked (c : String) (s : Option ℚ) (r : ℕ) (b col : String) : RankedRow :=
  { toScoredRow := sampleScored c s, rank := r, rank_badge := b, rank_color := col }

/-- The full output row `recompute` produces for the single input row
`sampleInput "A" (.str "10.0") (some "net 30")` at quantity 2. -/
def sampleOutA : OutRow :=
  ⟨⟨⟨⟨"A", "widget", PyObj.str "10.0", some "net 30"⟩, 30, some (301 / 30)⟩,
    1, "🥇 Gold", "background-color: \x23fff4b3;"⟩, some 20⟩

/-- Output row for the total-cost example at quantity 3. -/
def sampleOutB : OutRow :=
  ⟨sampleRanked "A" (some 10) 1 "🥇 Gold" "background-color: \x23fff4b3;", some 30⟩

/-- A ranked row whose price is the empty string (score already the
9999 sentinel). -/
def sampleRankedE : RankedRow :=
  ⟨⟨⟨"E", "widget", PyObj.str "", some "net 30"⟩, 30, some 9999⟩, 1, "🥇 Gold", ""⟩

/-! # Calendar arithmetic lemmas -/

theorem isleap_iff (y : ℕ) :
    isleap y = true ↔ ((y % 4 = 0 ∧ ¬ y % 100 = 0) ∨ y % 400 = 0) := by
  simp [isleap, Bool.or_eq_true, Bool.and_eq_true, beq_iff_eq, bne_iff_ne]

set_option maxHeartbeats 4000000 in
theorem daysBeforeYear_succ (y : ℕ) (h : 1 ≤ y) :
    daysBeforeYear (y + 1) = daysBeforeYear y + 365 + (if isleap y then 1 else 0) := by
  cases hL : isleap y
  · have hA : ¬ ((y % 4 = 0 ∧ ¬ y % 100 = 0) ∨ y % 400 = 0) := by
      rw [← isleap_iff, hL]; simp
    simp only [daysBeforeYear]
    norm_num
    omega
  · have hA : (y % 4 = 0 ∧ ¬ y % 100 = 0) ∨ y % 400 = 0 := (isleap_iff y).mp hL
    simp only [daysBeforeYear]
    norm_num
    omega

/-- Any valid date of year `y` has ordinal at most the last day of `y`,
which is the day before year `y + 1` starts. -/
theorem toordinal_le_daysBeforeYear_succ (d : PyDate) (h : d.Valid) :
    toordinal d ≤ daysBeforeYear (d.year + 1) := by
  obtain ⟨y, mo, day⟩ := d
  simp only [PyDate.Valid] at h
  obtain ⟨hy, hm1, hm2, hd1, hd2⟩ := h
  have hs := daysBeforeYear_succ y hy
  interval_cases mo <;> cases hL : isleap y <;>
    simp [toordinal, daysInMonth, daysInMonthTable, daysBeforeMonthTable, hL] at hd2 hs ⊢ <;>
    omega

theorem dateLt_iff (y1 m1 d1 y2 m2 d2 : ℕ) :
    dateLt ⟨y1, m1, d1⟩ ⟨y2, m2, d2⟩ = true ↔
    (y1 < y2 ∨ (y1 = y2 ∧ (m1 < m2 ∨ (m1 = m2 ∧ d1 < d2)))) := by
  simp [dateLt]

/-- If (month, day) has not passed (8, 1) in the lexicographic order,
the ordinal has not passed August 1st of the same year. -/
theorem toordinal_le_aug1 (y mo d : ℕ) (hd2 : d ≤ daysInMonth y mo)
    (h : mo < 8 ∨ (mo = 8 ∧ d ≤ 1)) (hm1 : 1 ≤ mo) :
    toordinal ⟨y, mo, d⟩ ≤ toordinal ⟨y, 8, 1⟩ := by
  have hm8 : mo ≤ 8 := by omega
  interval_cases mo <;> cases hL : isleap y <;>
    simp [toordinal, daysInMonth, daysInMonthTable, daysBeforeMonthTable, hL] at hd2 ⊢ <;>
    omega

/-- If (month, day) has not passed (3, 15) in the lexicographic order,
the ordinal has not passed March 15th of the same year. -/
theorem toordinal_le_mar15 (y mo d : ℕ) (hd2 : d ≤ daysInMonth y mo)
    (h : mo < 3 ∨ (mo = 3 ∧ d ≤ 15)) (hm1 : 1 ≤ mo) :
    toordinal ⟨y, mo, d⟩ ≤ toordinal ⟨y, 3, 15⟩ := by
  have hm3 : mo ≤ 3 := by omega
  interval_cases mo <;> cases hL : isleap y <;>
    simp [toordinal, daysInMonth, daysInMonthTable, daysBeforeMonthTable, hL] at hd2 ⊢ <;>
    omega

/-- The August 1st branch of `recalc_terms_days` yields a nonnegative
day count for any valid `today`. -/
theorem aug_branch_nonneg (today : PyDate) (h : today.Valid) :
    0 ≤ dateSubDays
      (if dateLt ⟨today.year, 8, 1⟩ today then ⟨today.year + 1, 8, 1⟩
       else ⟨today.year, 8, 1⟩) today := by
  obtain ⟨y, mo, d⟩ := today
  have hv := h
  simp only [PyDate.Valid] at h
  obtain ⟨hy, hm1, hm2, hd1, hd2⟩ := h
  by_cases hlt : dateLt ⟨y, 8, 1⟩ ⟨y, mo, d⟩ = true
  · rw [if_pos hlt]
    have h1 : toordinal ⟨y, mo, d⟩ ≤ daysBeforeYear (y + 1) :=
      toordinal_le_daysBeforeYear_succ ⟨y, mo, d⟩ hv
    have h2 : daysBeforeYear (y + 1) + 1 ≤ toordinal ⟨y + 1, 8, 1⟩ := by
      cases hL : isleap (y + 1) <;> simp [toordinal, daysBeforeMonthTable, hL]
    simp only [dateSubDays]
    omega
  · rw [if_neg hlt]
    rw [dateLt_iff] at hlt
    have h3 : mo < 8 ∨ (mo = 8 ∧ d ≤ 1) := by omega
    have h4 := toordinal_le_aug1 y mo d hd2 h3 hm1
    simp only [dateSubDays]
    omega

/-- The March 15th branch of `recalc_terms_days` yields a nonnegative
day count for any valid `today`. -/
theorem mar_branch_nonneg (today : PyDate) (h : today.Valid) :
    0 ≤ dateSubDays
      (if dateLt ⟨today.year, 3, 15⟩ today then ⟨today.year + 1, 3, 15⟩
       else ⟨today.year, 3, 15⟩) today := by
  obtain ⟨y, mo, d⟩ := today
  have hv := h
  simp only [PyDate.Valid] at h
  obtain ⟨hy, hm1, hm2, hd1, hd2⟩ := h
  by_cases hlt : dateLt ⟨y, 3, 15⟩ ⟨y, mo, d⟩ = true
  · rw [if_pos hlt]
    have h1 : toordinal ⟨y, mo, d⟩ ≤ daysBeforeYear (y + 1) :=
      toordinal_le_daysBeforeYear_succ ⟨y, mo, d⟩ hv
    have h2 : daysBeforeYear (y + 1) + 1 ≤ toordinal ⟨y + 1, 3, 15⟩ := by
      cases hL : isleap (y + 1) <;> simp [toordinal, daysBeforeMonthTable, hL]
    simp only [dateSubDays]
    omega
  · rw [if_neg hlt]
    rw [dateLt_iff] at hlt
    have h3 : mo < 3 ∨ (mo = 3 ∧ d ≤ 15) := by omega
    have h4 := toordinal_le_mar15 y mo d hd2 h3 hm1
    simp only [dateSubDays]
    omega

/-- `recalc_terms_days` never returns a negative day count on a valid
date. -/
theorem recalc_terms_days_nonneg (t : Option String) (today : PyDate)
    (h : today.Valid) : 0 ≤ recalc_terms_days t today := by
  cases t with
  | none => simp [recalc_terms_days]
  | some s =>
    simp only [recalc_terms_days]
    by_cases h1 : containsSub "No current vendor" (trimWs s.toList) = true
    · rw [if_pos h1]
    · rw [if_neg h1]
      by_cases h2 : containsSub "30" (trimWs s.toList) = true
      · rw [if_pos h2]; norm_num
      · rw [if_neg h2]
        by_cases h3 : containsSub "August 1st" (trimWs s.toList) = true
        · rw [if_pos h3]; exact aug_branch_nonneg today h
        · rw [if_neg h3]
          by_cases h4 : containsSub "March 15th" (trimWs s.toList) = true
          · rw [if_pos h4]; exact mar_branch_nonneg today h
          · rw [if_neg h4]

/-- The embedded resolver coincides with the spec's ordered-rule
reference definition at every input. -/
theorem recalc_eq_resolveTermsSpec (t : Option String) (today : PyDate) :
    recalc_terms_days t today = resolveTermsSpec t today := by
  cases t with
  | none => rfl
  | some s =>
    simp only [recalc_terms_days, resolveTermsSpec, specNoVendorRule, specNumericRule,
      specAnnualRule, nextOccurrence]
    by_cases h1 : containsSub "No current vendor" (trimWs s.data) = true <;>
      by_cases h2 : containsSub "30" (trimWs s.data) = true <;>
        by_cases h3 : containsSub "August 1st" (trimWs s.data) = true <;>
          by_cases h4 : containsSub "March 15th" (trimWs s.data) = true <;>
            simp [h1, h2, h3, h4, firstRule]

/-! # Ranking lemmas -/

theorem scoreKeyLt_trans {n : ℕ} (f : Fin n → ℚ) {i j k : Fin n}
    (h1 : scoreKeyLt f i j) (h2 : scoreKeyLt f j k) : scoreKeyLt f i k := by
  rcases h1 with h1 | ⟨e1, l1⟩ <;> rcases h2 with h2 | ⟨e2, l2⟩
  · exact Or.inl (h1.trans h2)
  · exact Or.inl (e2 ▸ h1)
  · exact Or.inl (by rw [e1]; exact h2)
  · exact Or.inr ⟨e1.trans e2, l1.trans l2⟩

theorem scoreKeyLt_irrefl {n : ℕ} (f : Fin n → ℚ) (i : Fin n) :
    ¬ scoreKeyLt f i i := by
  rintro (h | ⟨-, h⟩) <;> exact lt_irrefl _ h

theorem scoreKeyLt_trichot {n : ℕ} (f : Fin n → ℚ) (i j : Fin n) :
    scoreKeyLt f i j ∨ i = j ∨ scoreKeyLt f j i := by
  rcases lt_trichotomy (f i) (f j) with h | h | h
  · exact Or.inl (Or.inl h)
  · rcases lt_trichotomy i j with hij | hij | hij
    · exact Or.inl (Or.inr ⟨h, hij⟩)
    · exact Or.inr (Or.inl hij)
    · exact Or.inr (Or.inr (Or.inr ⟨h.symm, hij⟩))
  · exact Or.inr (Or.inr (Or.inl h))

/-- `rank(method="first")` of `i` is one more than the number of entries
strictly before `i` in the (score, original position) order. -/
theorem rankFirst_eq_card {n : ℕ} (f : Fin n → ℚ) (i : Fin n) :
    rankFirst f i = (Finset.univ.filter fun j => scoreKeyLt f j i).card + 1 := by
  classical
  have hsplit : (Finset.univ.filter fun j => f j = f i ∧ j ≤ i)
      = insert i (Finset.univ.filter fun j => f j = f i ∧ j < i) := by
    ext k
    simp only [Finset.mem_filter, Finset.mem_univ, true_and, Finset.mem_insert]
    constructor
    · rintro ⟨he, hle⟩
      rcases eq_or_lt_of_le hle with h | h
      · exact Or.inl h
      · exact Or.inr ⟨he, h⟩
    · rintro (rfl | ⟨he, hlt⟩)
      · exact ⟨rfl, le_refl _⟩
      · exact ⟨he, le_of_lt hlt⟩
  have hdisj : Disjoint (Finset.univ.filter fun j => f j < f i)
      (Finset.univ.filter fun j => f j = f i ∧ j < i) := by
    rw [Finset.disjoint_left]
    intro k hk1 hk2
    simp only [Finset.mem_filter, Finset.mem_univ, true_and] at hk1 hk2
    exact absurd hk2.1 (ne_of_lt hk1)
  have hunion : (Finset.univ.filter fun j => scoreKeyLt f j i)
      = (Finset.univ.filter fun j => f j < f i) ∪
        (Finset.univ.filter fun j => f j = f i ∧ j < i) := by
    ext k
    simp [scoreKeyLt, Finset.mem_filter, Finset.mem_union]
  have hnotmem : i ∉ (Finset.univ.filter fun j => f j = f i ∧ j < i) := by
    simp
  rw [rankFirst, hsplit, Finset.card_insert_of_not_mem hnotmem, hunion,
    Finset.card_union_of_disjoint hdisj]
  omega

theorem rankFirst_lt_of_keyLt {n : ℕ} (f : Fin n → ℚ) {i j : Fin n}
    (h : scoreKeyLt f i j) : rankFirst f i < rankFirst f j := by
  classical
  rw [rankFirst_eq_card, rankFirst_eq_card]
  have hss : (Finset.univ.filter fun k => scoreKeyLt f k i)
      ⊂ (Finset.univ.filter fun k => scoreKeyLt f k j) := by
    rw [Finset.ssubset_def]
    constructor
    · intro k hk
      simp only [Finset.mem_filter, Finset.mem_univ, true_and] at hk ⊢
      exact scoreKeyLt_trans f hk h
    · intro hsub
      have hi := hsub (Finset.mem_filter.mpr ⟨Finset.mem_univ i, h⟩)
      simp only [Finset.mem_filter, Finset.mem_univ, true_and] at hi
      exact scoreKeyLt_irrefl f i hi
  have := Finset.card_lt_card hss
  omega

theorem rankFirst_lt_iff {n : ℕ} (f : Fin n → ℚ) (i j : Fin n) :
    rankFirst f i < rankFirst f j ↔ scoreKeyLt f i j := by
  constructor
  · intro h
    rcases scoreKeyLt_trichot f i j with hk | rfl | hk
    · exact hk
    · exact absurd h (lt_irrefl _)
    · have := rankFirst_lt_of_keyLt f hk
      omega
  · exact rankFirst_lt_of_keyLt f

theorem rankFirst_pos {n : ℕ} (f : Fin n → ℚ) (i : Fin n) :
    1 ≤ rankFirst f i := by
  rw [rankFirst_eq_card]
  omega

theorem rankFirst_le {n : ℕ} (f : Fin n → ℚ) (i : Fin n) :
    rankFirst f i ≤ n := by
  classical
  rw [rankFirst_eq_card]
  have hsub : (Finset.univ.filter fun j => scoreKeyLt f j i)
      ⊆ Finset.univ.erase i := by
    intro k hk
    simp only [Finset.mem_filter, Finset.mem_univ, true_and] at hk
    refine Finset.mem_erase.mpr ⟨?_, Finset.mem_univ k⟩
    rintro rfl
    exact scoreKeyLt_irrefl f k hk
  have h2 := Finset.card_le_card hsub
  have h3 : (Finset.univ.erase i).card = n - 1 := by
    rw [Finset.card_erase_of_mem (Finset.mem_univ i), Finset.card_univ,
      Fintype.card_fin]
  have h4 : 0 < n := i.pos
  omega

theorem rankFirst_injective {n : ℕ} (f : Fin n → ℚ) :
    Function.Injective (rankFirst f) := by
  intro i j h
  rcases scoreKeyLt_trichot f i j with hk | hk | hk
  · have := rankFirst_lt_of_keyLt f hk; omega
  · exact hk
  · have := rankFirst_lt_of_keyLt f hk; omega

theorem rankFirst_surjective {n : ℕ} (f : Fin n → ℚ) (r : ℕ)
    (h1 : 1 ≤ r) (h2 : r ≤ n) : ∃ i, rankFirst f i = r := by
  classical
  have hn : 0 < n := by omega
  have hg : Function.Injective
      (fun i => (⟨rankFirst f i - 1,
        by have := rankFirst_le f i; have := rankFirst_pos f i; omega⟩ : Fin n)) := by
    intro i j hij
    apply rankFirst_injective f
    have h1i := rankFirst_pos f i
    have h1j := rankFirst_pos f j
    have hv := congrArg Fin.val hij
    simp only at hv
    omega
  have hs := Finite.surjective_of_injective hg
  obtain ⟨i, hi⟩ := hs ⟨r - 1, by omega⟩
  refine ⟨i, ?_⟩
  have hv := congrArg Fin.val hi
  simp only at hv
  have := rankFirst_pos f i
  omega

/-! # `assign_rank_badge` structure lemmas -/

/-- A successful `assign_rank_badge` run means the NaN check passed and
the output is the positional map assigning each row its
`rank(method="first")` rank and derived badge/color. -/
theorem assign_rank_badge_ok (rows : List ScoredRow) (out : List RankedRow)
    (hr : assign_rank_badge rows = .ok out) :
    (rows.map ScoredRow.vendor_score).all Option.isSome = true ∧
    out = (List.finRange rows.length).map (fun i =>
      { toScoredRow := rows.get i,
        rank := rankFirst (fun j => ((rows.get j).vendor_score).getD 0) i,
        rank_badge := badge_for_rank
          (rankFirst (fun j => ((rows.get j).vendor_score).getD 0) i),
        rank_color := color_for_rank
          (rankFirst (fun j => ((rows.get j).vendor_score).getD 0) i) }) := by
  by_cases hc : (rows.map ScoredRow.vendor_score).all Option.isSome = true
  · refine ⟨hc, ?_⟩
    unfold assign_rank_badge at hr
    rw [if_pos hc] at hr
    injection hr with h
    exact h.symm
  · unfold assign_rank_badge at hr
    rw [if_neg hc] at hr
    exact absurd hr (by simp)

/-- When the NaN check passes, every row's score is `some` of its
default-stripped value. -/
theorem vendor_score_eq_some (rows : List ScoredRow)
    (hc : (rows.map ScoredRow.vendor_score).all Option.isSome = true)
    (j : Fin rows.length) :
    (rows.get j).vendor_score = some (((rows.get j).vendor_score).getD 0) := by
  rw [List.all_eq_true] at hc
  have hmem : (rows.get j).vendor_score ∈ rows.map ScoredRow.vendor_score :=
    List.mem_map_of_mem _ (rows.get_mem j.1 j.2)
  have := hc _ hmem
  cases h : (rows.get j).vendor_score with
  | none => rw [h] at this; simp at this
  | some v => simp [h]

/-- `assign_rank_badge` preserves length. -/
theorem assign_rank_badge_length (rows : List ScoredRow) (out : List RankedRow)
    (hr : assign_rank_badge rows = .ok out) : out.length = rows.length := by
  obtain ⟨-, rfl⟩ := assign_rank_badge_ok rows out hr
  simp

/-- `assign_rank_badge` keeps every pre-existing column of every row, in
order: projecting away the three added columns gives back the input. -/
theorem assign_rank_badge_frame (rows : List ScoredRow) (out : List RankedRow)
    (hr : assign_rank_badge rows = .ok out) :
    out.map RankedRow.toScoredRow = rows := by
  obtain ⟨-, rfl⟩ := assign_rank_badge_ok rows out hr
  rw [List.map_map]
  exact List.finRange_map_get rows

/-! # Pipeline lemmas -/

/-- Scoring never inspects or changes the raw columns: projecting them
back out of the scored rows returns the input table. -/
theorem scoreRows_map_toInputRow (T : List InputRow) (today : PyDate) :
    (scoreRows T today).map ScoredRow.toInputRow = T := by
  unfold scoreRows
  rw [List.map_map]
  exact List.map_id T

/-- The total-cost pass keeps every ranked row unchanged, in order. -/
theorem addTotalCost_frame (rows : List RankedRow) (qty : ℚ) (out : List OutRow)
    (h : addTotalCost rows qty = .ok out) :
    out.map OutRow.toRankedRow = rows := by
  induction rows generalizing out with
  | nil =>
    unfold addTotalCost at h
    injection h with h
    rw [← h]
    rfl
  | cons r rs ih =>
    unfold addTotalCost at h
    cases hp : pyFloat r.price with
    | error e => rw [hp] at h; exact absurd h (by simp)
    | ok p =>
      rw [hp] at h
      cases ht : addTotalCost rs qty with
      | error e => rw [ht] at h; exact absurd h (by simp)
      | ok out' =>
        rw [ht] at h
        injection h with h
        rw [← h, List.map_cons, ih out' ht]

/-- The total-cost pass succeeds as soon as every price converts (to a
finite float or NaN). -/
theorem addTotalCost_ok_of_parses (rows : List RankedRow) (qty : ℚ)
    (h : ∀ r ∈ rows, ∃ p : Option ℚ, pyFloat r.price = .ok p) :
    ∃ out, addTotalCost rows qty = .ok out := by
  induction rows with
  | nil => exact ⟨[], rfl⟩
  | cons r rs ih =>
    obtain ⟨p, hp⟩ := h r (List.mem_cons_self r rs)
    obtain ⟨out', hout'⟩ := ih (fun x hx => h x (List.mem_cons_of_mem r hx))
    refine ⟨{ toRankedRow := r, total_cost := p.map (fun v => v * qty) } :: out', ?_⟩
    unfold addTotalCost
    rw [hp, hout']

/-- Elementwise description of the total-cost column: each output row
carries `total_cost = float(price) * qty`, with NaN propagating. -/
theorem addTotalCost_get (rows : List RankedRow) (qty : ℚ) (out : List OutRow)
    (h : addTotalCost rows qty = .ok out) :
    ∀ (i : ℕ) (hi : i < out.length), ∃ p : Option ℚ,
      pyFloat (out.get ⟨i, hi⟩).price = .ok p ∧
      (out.get ⟨i, hi⟩).total_cost = p.map (fun v => v * qty) := by
  induction rows generalizing out with
  | nil =>
    unfold addTotalCost at h
    injection h with h
    subst h
    intro i hi
    exact absurd hi (by simp)
  | cons r rs ih =>
    unfold addTotalCost at h
    cases hp : pyFloat r.price with
    | error e => rw [hp] at h; exact absurd h (by simp)
    | ok p =>
      rw [hp] at h
      cases ht : addTotalCost rs qty with
      | error e => rw [ht] at h; exact absurd h (by simp)
      | ok out' =>
        rw [ht] at h
        injection h with h
        subst h
        intro i hi
        cases i with
        | zero => exact ⟨p, hp, rfl⟩
        | succ i' => exact ih out' ht i' (by simpa using hi)

/-- A score is only NaN when the price converted to NaN. -/
theorem calculate_vendor_score_isSome (price : PyObj) (td : ℤ)
    (h : pyFloat price ≠ .ok none) :
    (calculate_vendor_score price td).isSome = true := by
  cases hp : pyFloat price with
  | error e => unfold calculate_vendor_score; rw [hp]; rfl
  | ok p =>
    cases p with
    | none => exact absurd hp h
    | some v =>
      unfold calculate_vendor_score
      rw [hp]
      show (if 0 < (if td ≠ 0 then td else 0) then
          Option.map (fun q => q + 1 / (((if td ≠ 0 then td else 0) : ℤ) : ℚ)) (some v)
        else some 9999).isSome = true
      split_ifs <;> simp

/-- `assign_rank_badge` succeeds exactly when no score is NaN. -/
theorem assign_rank_badge_ok_of_isSome (rows : List ScoredRow)
    (hc : (rows.map ScoredRow.vendor_score).all Option.isSome = true) :
    assign_rank_badge rows = .ok ((List.finRange rows.length).map (fun i =>
      { toScoredRow := rows.get i,
        rank := rankFirst (fun j => ((rows.get j).vendor_score).getD 0) i,
        rank_badge := badge_for_rank
          (rankFirst (fun j => ((rows.get j).vendor_score).getD 0) i),
        rank_color := color_for_rank
          (rankFirst (fun j => ((rows.get j).vendor_score).getD 0) i) })) := by
  unfold assign_rank_badge
  rw [if_pos hc]

/-- Split a successful `recompute` into its two fallible stages. -/
theorem recompute_ok_parts (T : List InputRow) (today : PyDate) (qty : ℚ)
    (out : List OutRow) (h : recompute T today qty = .ok out) :
    ∃ ranked, assign_rank_badge (scoreRows T today) = .ok ranked ∧
      addTotalCost ranked qty = .ok out := by
  unfold recompute at h
  cases ha : assign_rank_badge (scoreRows T today) with
  | error e => rw [ha] at h; exact absurd h (by simp [Except.bind])
  | ok ranked => rw [ha] at h; exact ⟨ranked, rfl, h⟩

/-- A successful `recompute` leaves the raw columns of the table exactly
as they came in. -/
theorem recompute_strip (T : List InputRow) (today : PyDate) (qty : ℚ)
    (out : List OutRow) (h : recompute T today qty = .ok out) :
    out.map stripDerived = T := by
  obtain ⟨ranked, ha, ht⟩ := recompute_ok_parts T today qty out h
  have h1 := addTotalCost_frame ranked qty out ht
  have h2 := assign_rank_badge_frame _ ranked ha
  have h3 := scoreRows_map_toInputRow T today
  calc out.map stripDerived
      = ((out.map OutRow.toRankedRow).map RankedRow.toScoredRow).map
          ScoredRow.toInputRow := by
        rw [List.map_map, List.map_map]
        rfl
    _ = T := by rw [h1, h2, h3]

/-! # Claim theorems -/

/-- C1 (amended): when the price converts to a finite float and
`terms_days > 0` the score is `price + 1/terms_days`; when the
conversion raises (null, empty, unparsable text) or `terms_days ≤ 0`
the score is the fixed sentinel 9999; but a price converting to NaN
(e.g. the text "nan") yields a NaN score instead of the sentinel, so
the absent-price case is not uniformly under the sentinel policy. -/
theorem claim_C1_score_sentinel_policy (price : PyObj) (days : ℤ) :
    (∀ p : ℚ, pyFloat price = .ok (some p) → 0 < days →
      calculate_vendor_score price days = some (p + 1 / (days : ℚ))) ∧
    (∀ e, pyFloat price = .error e →
      calculate_vendor_score price days = some 9999) ∧
    (days ≤ 0 → calculate_vendor_score price days = some 9999) ∧
    (pyFloat price = .ok none → 0 < days →
      calculate_vendor_score price days = none) := by
  refine ⟨?_, ?_, ?_, ?_⟩
  · intro p hp hd
    unfold calculate_vendor_score
    rw [hp]
    show (if 0 < (if days ≠ 0 then days else 0) then
        Option.map (fun q => q + 1 / (((if days ≠ 0 then days else 0) : ℤ) : ℚ))
          (some p)
      else some 9999) = some (p + 1 / (days : ℚ))
    rw [if_pos (show days ≠ 0 by omega), if_pos hd]
    rfl
  · intro e he
    unfold calculate_vendor_score
    rw [he]
  · intro hd
    unfold calculate_vendor_score
    cases hp : pyFloat price with
    | error e => rfl
    | ok p =>
      show (if 0 < (if days ≠ 0 then days else 0) then
          Option.map (fun q => q + 1 / (((if days ≠ 0 then days else 0) : ℤ) : ℚ)) p
        else some 9999) = some 9999
      rw [if_neg (show ¬ 0 < (if days ≠ 0 then days else 0) by split_ifs <;> omega)]
  · intro hn hd
    unfold calculate_vendor_score
    rw [hn]
    show (if 0 < (if days ≠ 0 then days else 0) then
        Option.map (fun q => q + 1 / (((if days ≠ 0 then days else 0) : ℤ) : ℚ))
          none
      else some 9999) = none
    rw [if_pos (show days ≠ 0 by omega), if_pos hd]
    rfl

theorem claim_C1_score_sentinel_policy_witness :
    pyFloat (.str "10.0") = .ok (some 10) ∧ 0 < (30 : ℤ) ∧
      calculate_vendor_score (.str "10.0") 30 = some (10 + 1 / ((30 : ℤ) : ℚ)) :=
  ⟨by decide, by decide,
    (claim_C1_score_sentinel_policy (.str "10.0") 30).1 10 (by decide) (by decide)⟩

/-- C1 counterexample: the two "undefined score" cases do not share one
sentinel policy in a run — the absent price "nan" propagates NaN while
the absent price "" and a zero term both give the 9999 sentinel. -/
theorem claim_C1_cex :
    calculate_vendor_score (.str "nan") 30 = none ∧
    calculate_vendor_score (.str "") 30 = some 9999 ∧
    calculate_vendor_score (.str "10.0") 0 = some 9999 ∧
    (none : Option ℚ) ≠ some (9999 : ℚ) := by decide

/-- C2: the resolver equals the spec's ordered-rule reference definition
(null → 0; no-vendor marker → 0; literal "30" anywhere → 30; "August
1st"/"March 15th" → day count to the next occurrence at or after today;
otherwise 0) and the result is never negative on a valid date. -/
theorem claim_C2_resolver_reference (t : Option String) (today : PyDate)
    (h : today.Valid) :
    recalc_terms_days t today = resolveTermsSpec t today ∧
      0 ≤ recalc_terms_days t today :=
  ⟨recalc_eq_resolveTermsSpec t today, recalc_terms_days_nonneg t today h⟩

theorem claim_C2_resolver_reference_witness :
    (PyDate.mk 2024 8 2).Valid ∧
      (recalc_terms_days (some "Due August 1st") ⟨2024, 8, 2⟩ =
          resolveTermsSpec (some "Due August 1st") ⟨2024, 8, 2⟩ ∧
        0 ≤ recalc_terms_days (some "Due August 1st") ⟨2024, 8, 2⟩) :=
  ⟨by decide, claim_C2_resolver_reference (some "Due August 1st") ⟨2024, 8, 2⟩ (by decide)⟩

/-- C5 (amended): no `$`/`,` stripping is performed — `float()` itself
accepts surrounding whitespace, so `" 1234.50 "`, `"1234.50"`,
`"1234.5"` all parse to 1234.5, while `" $1,234.50 "` fails to parse
(treated as absent by the score's `except`, but an exception wherever
uncaught); `""`, `"none"` (any case) and `None` fail to parse; `"nan"`
parses to NaN rather than being treated as absent. -/
theorem claim_C5_price_normalization :
    pyFloat (.str " 1234.50 ") = .ok (some (2469 / 2)) ∧
    pyFloat (.str "1234.50") = .ok (some (2469 / 2)) ∧
    pyFloat (.str "1234.5") = .ok (some (2469 / 2)) ∧
    pyFloat (.str "") = .error "could not convert string to float" ∧
    pyFloat (.str "none") = .error "could not convert string to float" ∧
    pyFloat (.str "NONE") = .error "could not convert string to float" ∧
    pyFloat .none_ = .error "float() argument must be a string or a real number" ∧
    pyFloat (.str "nan") = .ok none ∧
    pyFloat (.str "NaN") = .ok none ∧
    pyFloat (.str " $1,234.50 ") = .error "could not convert string to float" := by
  decide

/-- C5 counterexample: `" $1,234.50 "` does not normalize to 1234.5 (no
currency/thousands stripping exists; the conversion fails), and `"nan"`
becomes NaN rather than an absent price. -/
theorem claim_C5_cex :
    ¬ pyFloat (.str " $1,234.50 ") = .ok (some (2469 / 2)) ∧
    pyFloat (.str " $1,234.50 ") = .error "could not convert string to float" ∧
    pyFloat (.str "nan") = .ok none := by decide

/-- C7 (amended): the resolver's result is a function of the pair
(term text, date): equal dates give equal results; but the date is read
from the system clock inside `recalc_terms_days` (not passed by the
caller), and the result genuinely varies with that ambient date for a
fixed term text. -/
theorem claim_C7_resolver_determinism :
    (∀ (t : Option String) (d d' : PyDate), d = d' →
      recalc_terms_days t d = recalc_terms_days t d') ∧
    (∃ (t : Option String) (d d' : PyDate),
      recalc_terms_days t d ≠ recalc_terms_days t d') := by
  constructor
  · intro t d d' h
    rw [h]
  · exact ⟨some "Due August 1st", ⟨2024, 7, 31⟩, ⟨2024, 8, 2⟩, by decide⟩

theorem claim_C7_resolver_determinism_witness :
    recalc_terms_days (some "net 30") ⟨2024, 5, 1⟩ =
      recalc_terms_days (some "net 30") ⟨2024, 5, 1⟩ :=
  claim_C7_resolver_determinism.1 (some "net 30") ⟨2024, 5, 1⟩ ⟨2024, 5, 1⟩ rfl

/-- C7 counterexample: with the same term text, the internally-read
clock date changes the answer (1 day before 2024-08-01, 364 days after
it), so "today" is ambient state, not an explicit parameter of the
source function. -/
theorem claim_C7_cex :
    recalc_terms_days (some "Due August 1st") ⟨2024, 7, 31⟩ = 1 ∧
    recalc_terms_days (some "Due August 1st") ⟨2024, 8, 2⟩ = 364 := by decide

/-- C3 (amended): no row is excluded from rank assignment — whenever
`assign_rank_badge` succeeds, every row (the 9999-sentinel rows for
undefined scores included) receives a rank between 1 and the row count,
and its badge is determined by that rank. -/
theorem claim_C3_sentinel_rows_ranked (rows : List ScoredRow)
    (out : List RankedRow) (hr : assign_rank_badge rows = .ok out) :
    ∀ (i : ℕ) (hi : i < out.length),
      1 ≤ (out.get ⟨i, hi⟩).rank ∧ (out.get ⟨i, hi⟩).rank ≤ out.length ∧
        (out.get ⟨i, hi⟩).rank_badge = badge_for_rank (out.get ⟨i, hi⟩).rank := by
  obtain ⟨hc, hout⟩ := assign_rank_badge_ok rows out hr
  subst hout
  intro i hi
  simp only [List.get_eq_getElem, List.getElem_map, List.getElem_finRange]
  refine ⟨rankFirst_pos _ _, ?_, trivial⟩
  simp only [List.length_map, List.length_finRange]
  exact rankFirst_le _ _

theorem claim_C3_sentinel_rows_ranked_witness :
    assign_rank_badge [sampleScored "A" (some 10)] =
        .ok [sampleRanked "A" (some 10) 1 "🥇 Gold" "background-color: \x23fff4b3;"] ∧
      (1 ≤ (([sampleRanked "A" (some 10) 1 "🥇 Gold" "background-color: \x23fff4b3;"] :
            List RankedRow).get ⟨0, by decide⟩).rank ∧
        (([sampleRanked "A" (some 10) 1 "🥇 Gold" "background-color: \x23fff4b3;"] :
            List RankedRow).get ⟨0, by decide⟩).rank ≤ 1 ∧
        (([sampleRanked "A" (some 10) 1 "🥇 Gold" "background-color: \x23fff4b3;"] :
            List RankedRow).get ⟨0, by decide⟩).rank_badge =
          badge_for_rank (([sampleRanked "A" (some 10) 1 "🥇 Gold"
            "background-color: \x23fff4b3;"] : List RankedRow).get ⟨0, by decide⟩).rank) :=
  ⟨by decide, claim_C3_sentinel_rows_ranked [sampleScored "A" (some 10)]
    [sampleRanked "A" (some 10) 1 "🥇 Gold" "background-color: \x23fff4b3;"]
    (by decide) 0 (by decide)⟩

/-- C3 counterexample: a row whose vendor score is undefined (here the
9999 sentinel coming from an absent price) is *not* excluded from
ranking: in a two-row table it receives rank 2 and even the Silver
badge. -/
theorem claim_C3_cex :
    calculate_vendor_score PyObj.none_ 30 = some 9999 ∧
    (assign_rank_badge (scoreRows
        [sampleInput "A" (.str "10.0") (some "net 30"),
         sampleInput "D" .none_ (some "net 30")] ⟨2024, 5, 1⟩)).map
      (fun l => l.map (fun r => (r.vendor_score, r.rank, r.rank_badge))) =
      .ok [(some (301 / 30), 1, "🥇 Gold"), (some 9999, 2, "🥈 Silver")] := by
  decide

/-- C4: ranking sorts by score ascending with ties broken by original
position, assigns the consecutive ranks 1..K to the K rows, and the
badge is a function of the rank alone (1 gold, 2 silver, 3 bronze,
otherwise none). -/
theorem claim_C4_rank_assignment (rows : List ScoredRow) (out : List RankedRow)
    (hr : assign_rank_badge rows = .ok out) :
    out.length = rows.length ∧
    (∀ (i j : ℕ) (hi : i < out.length) (hj : j < out.length) (si sj : ℚ),
      (out.get ⟨i, hi⟩).vendor_score = some si →
      (out.get ⟨j, hj⟩).vendor_score = some sj →
      ((out.get ⟨i, hi⟩).rank < (out.get ⟨j, hj⟩).rank ↔
        (si < sj ∨ (si = sj ∧ i < j)))) ∧
    (∀ (i : ℕ) (hi : i < out.length),
      1 ≤ (out.get ⟨i, hi⟩).rank ∧ (out.get ⟨i, hi⟩).rank ≤ out.length) ∧
    (∀ r : ℕ, 1 ≤ r → r ≤ out.length →
      ∃ (i : ℕ) (hi : i < out.length), (out.get ⟨i, hi⟩).rank = r) ∧
    (∀ (i : ℕ) (hi : i < out.length),
      (out.get ⟨i, hi⟩).rank_badge = badge_for_rank (out.get ⟨i, hi⟩).rank) ∧
    (badge_for_rank 1 = "🥇 Gold" ∧ badge_for_rank 2 = "🥈 Silver" ∧
      badge_for_rank 3 = "🥉 Bronze" ∧ ∀ r : ℕ, 4 ≤ r → badge_for_rank r = "") := by
  obtain ⟨hc, hout⟩ := assign_rank_badge_ok rows out hr
  subst hout
  refine ⟨by simp, ?_, ?_, ?_, ?_, rfl, rfl, rfl, ?_⟩
  · intro i j hi hj si sj hsi hsj
    simp only [List.get_eq_getElem, List.getElem_map, List.getElem_finRange,
      Fin.coe_cast] at hsi hsj ⊢
    rw [rankFirst_lt_iff]
    simp only [scoreKeyLt, Fin.lt_def, Fin.coe_cast, List.get_eq_getElem, hsi, hsj,
      Option.getD_some]
  · intro i hi
    simp only [List.get_eq_getElem, List.getElem_map, List.getElem_finRange]
    refine ⟨rankFirst_pos _ _, ?_⟩
    simp only [List.length_map, List.length_finRange]
    exact rankFirst_le _ _
  · intro r h1 h2
    simp only [List.length_map, List.length_finRange] at h2 ⊢
    obtain ⟨k, hk⟩ := rankFirst_surjective
      (fun j => ((rows.get j).vendor_score).getD 0) r h1 h2
    refine ⟨k.1, by simp [k.2], ?_⟩
    simp only [List.get_eq_getElem, List.getElem_map, List.getElem_finRange]
    exact hk
  · intro i hi
    simp only [List.get_eq_getElem, List.getElem_map, List.getElem_finRange]
  · intro r hr4
    unfold badge_for_rank
    rw [if_neg (by omega), if_neg (by omega), if_neg (by omega)]

theorem claim_C4_rank_assignment_witness :
    assign_rank_badge [sampleScored "A" (some 10)] =
        .ok [sampleRanked "A" (some 10) 1 "🥇 Gold" "background-color: \x23fff4b3;"] ∧
      ([sampleRanked "A" (some 10) 1 "🥇 Gold" "background-color: \x23fff4b3;"] :
          List RankedRow).length = ([sampleScored "A" (some 10)] : List ScoredRow).length :=
  ⟨by decide, (claim_C4_rank_assignment [sampleScored "A" (some 10)]
    [sampleRanked "A" (some 10) 1 "🥇 Gold" "background-color: \x23fff4b3;"]
    (by decide)).1⟩

/-- C10: `assign_rank_badge` does not change the table it was given: the
output has the same rows in the same order with every pre-existing
column intact, and only `rank`, `rank_badge` and `rank_color` added
(the structure `RankedRow` extends `ScoredRow` by exactly those
fields). -/
theorem claim_C10_no_mutation (rows : List ScoredRow) (out : List RankedRow)
    (hr : assign_rank_badge rows = .ok out) :
    out.length = rows.length ∧ out.map RankedRow.toScoredRow = rows := by
  have h := assign_rank_badge_frame rows out hr
  refine ⟨?_, h⟩
  have h2 := congrArg List.length h
  rw [List.length_map] at h2
  exact h2

theorem claim_C10_no_mutation_witness :
    assign_rank_badge [sampleScored "B" (some 5)] =
        .ok [sampleRanked "B" (some 5) 1 "🥇 Gold" "background-color: \x23fff4b3;"] ∧
      (([sampleRanked "B" (some 5) 1 "🥇 Gold" "background-color: \x23fff4b3;"] :
          List RankedRow).length = ([sampleScored "B" (some 5)] : List ScoredRow).length ∧
        ([sampleRanked "B" (some 5) 1 "🥇 Gold" "background-color: \x23fff4b3;"] :
          List RankedRow).map RankedRow.toScoredRow = [sampleScored "B" (some 5)]) :=
  ⟨by decide, claim_C10_no_mutation [sampleScored "B" (some 5)]
    [sampleRanked "B" (some 5) 1 "🥇 Gold" "background-color: \x23fff4b3;"]
    (by decide)⟩

/-- C6 (amended): price parsing inside the score calculator and the
term resolver degrade locally (bare `except` / `isna`), so for a table
whose prices all convert to finite floats the whole recompute pass
succeeds; but (see the counterexample) a malformed price raises at the
module-level `astype(float)` total-cost step, so the core can raise on
a malformed individual field, not only on a missing column. -/
theorem claim_C6_no_raise (T : List InputRow) (today : PyDate) (qty : ℚ)
    (h : ∀ r ∈ T, ∃ p : ℚ, pyFloat r.price = .ok (some p)) :
    ∃ out, recompute T today qty = .ok out := by
  have hsc : ((scoreRows T today).map ScoredRow.vendor_score).all
      Option.isSome = true := by
    rw [List.all_eq_true]
    intro o ho
    rw [List.mem_map] at ho
    obtain ⟨s, hs, rfl⟩ := ho
    unfold scoreRows at hs
    rw [List.mem_map] at hs
    obtain ⟨r, hrT, rfl⟩ := hs
    obtain ⟨p, hp⟩ := h r hrT
    exact calculate_vendor_score_isSome r.price _ (by rw [hp]; simp)
  obtain ⟨ranked, ha⟩ : ∃ rk, assign_rank_badge (scoreRows T today) = .ok rk :=
    ⟨_, assign_rank_badge_ok_of_isSome (scoreRows T today) hsc⟩
  have hframe := assign_rank_badge_frame _ _ ha
  have htc : ∃ outT, addTotalCost ranked qty = .ok outT := by
    apply addTotalCost_ok_of_parses
    intro r hr
    have hmem : r.toScoredRow ∈ scoreRows T today := by
      rw [← hframe]
      exact List.mem_map_of_mem _ hr
    unfold scoreRows at hmem
    rw [List.mem_map] at hmem
    obtain ⟨r0, hr0, heq⟩ := hmem
    obtain ⟨p, hp⟩ := h r0 hr0
    refine ⟨some p, ?_⟩
    rw [show r.price = r0.price from by rw [← heq]]
    exact hp
  obtain ⟨outT, htc⟩ := htc
  refine ⟨outT, ?_⟩
  unfold recompute
  rw [ha]
  exact htc

theorem claim_C6_no_raise_witness :
    (∀ r ∈ [sampleInput "A" (.str "10.0") (some "net 30")],
        ∃ p : ℚ, pyFloat r.price = .ok (some p)) ∧
      ∃ out, recompute [sampleInput "A" (.str "10.0") (some "net 30")]
        ⟨2024, 5, 1⟩ 100 = .ok out := by
  have hin : ∀ r ∈ [sampleInput "A" (.str "10.0") (some "net 30")],
      ∃ p : ℚ, pyFloat r.price = .ok (some p) := by
    intro r hr
    rw [List.mem_singleton] at hr
    subst hr
    exact ⟨10, by decide⟩
  exact ⟨hin, claim_C6_no_raise _ ⟨2024, 5, 1⟩ 100 hin⟩

/-- C6 counterexample: the malformed price `"$1,234.50"` is handled
locally by the score calculator (sentinel 9999) but raises at the
module-level total-cost computation — the core raises for a malformed
individual field value even though no column is missing. -/
theorem claim_C6_cex :
    calculate_vendor_score (.str "$1,234.50") 30 = some 9999 ∧
    recompute [sampleInput "B" (.str "$1,234.50") (some "net 30")]
      ⟨2024, 5, 1⟩ 100 = .error "could not convert string to float" := by decide

/-- C8: the recompute pipeline is idempotent — its output, stripped of
the derived columns, is the original raw table, and recomputing from
that stripped table reproduces the output exactly.  Derived columns are
recomputed from the raw columns, never reused. -/
theorem claim_C8_idempotent (T : List InputRow) (today : PyDate) (qty : ℚ)
    (out : List OutRow) (h : recompute T today qty = .ok out) :
    out.map stripDerived = T ∧
      recompute (out.map stripDerived) today qty = .ok out := by
  have hs := recompute_strip T today qty out h
  exact ⟨hs, by rw [hs]; exact h⟩

theorem claim_C8_idempotent_witness :
    recompute [sampleInput "A" (.str "10.0") (some "net 30")] ⟨2024, 5, 1⟩ 2 =
        .ok [sampleOutA] ∧
      (([sampleOutA] : List OutRow).map stripDerived =
          [sampleInput "A" (.str "10.0") (some "net 30")] ∧
        recompute (([sampleOutA] : List OutRow).map stripDerived) ⟨2024, 5, 1⟩ 2 =
          .ok [sampleOutA]) :=
  ⟨by decide, claim_C8_idempotent [sampleInput "A" (.str "10.0") (some "net 30")]
    ⟨2024, 5, 1⟩ 2 [sampleOutA] (by decide)⟩

/-- C9 (amended): each total-cost cell is `float(price) * qty` — a
finite price multiplies out, a NaN price propagates NaN ("absent") to
the total — but (see the counterexample) a price that fails float
conversion raises instead of propagating absence. -/
theorem claim_C9_total_cost (rows : List RankedRow) (qty : ℚ) (out : List OutRow)
    (h : addTotalCost rows qty = .ok out) :
    out.length = rows.length ∧
    ∀ (i : ℕ) (hi : i < out.length), ∃ p : Option ℚ,
      pyFloat (out.get ⟨i, hi⟩).price = .ok p ∧
      (out.get ⟨i, hi⟩).total_cost = p.map (fun v => v * qty) := by
  constructor
  · have h2 := congrArg List.length (addTotalCost_frame rows qty out h)
    rw [List.length_map] at h2
    exact h2
  · exact addTotalCost_get rows qty out h

theorem claim_C9_total_cost_witness :
    addTotalCost [sampleRanked "A" (some 10) 1 "🥇 Gold"
        "background-color: \x23fff4b3;"] 3 = .ok [sampleOutB] ∧
    (([sampleOutB] : List OutRow).length =
        ([sampleRanked "A" (some 10) 1 "🥇 Gold"
          "background-color: \x23fff4b3;"] : List RankedRow).length ∧
      ∀ (i : ℕ) (hi : i < ([sampleOutB] : List OutRow).length), ∃ p : Option ℚ,
        pyFloat (([sampleOutB] : List OutRow).get ⟨i, hi⟩).price = .ok p ∧
        (([sampleOutB] : List OutRow).get ⟨i, hi⟩).total_cost =
          p.map (fun v => v * 3)) :=
  ⟨by decide, claim_C9_total_cost [sampleRanked "A" (some 10) 1 "🥇 Gold"
      "background-color: \x23fff4b3;"] 3 [sampleOutB] (by decide)⟩

/-- C9 counterexample: an absent price (empty string) does not
propagate to an absent total cost — the score step treats it as absent
(sentinel 9999) but the total-cost step raises on it. -/
theorem claim_C9_cex :
    calculate_vendor_score (.str "") 30 = some 9999 ∧
    addTotalCost [sampleRankedE] 100 =
      .error "could not convert string to float" := by decide
